import Mathlib

/-!
Shallow embedding of the sealed-session library in `src/src/index.ts`
(classes `IronSession` and `IronStore`, plus the free helper functions
`getCookieMaxAge`, `getCookieSerializeOptions`, `getRequestCookie` and
`setResponseCookie`).

The external dependencies (`@hapi/iron`, the `cookie` codec, the Node
request/response objects) are out of scope of the repository and are
modelled at their interface boundary, as documented on each definition.
JavaScript numbers used for times and ages are embedded as `Int`;
JavaScript string truthiness (`if (s)`) is embedded as `¬ s.isEmpty`;
a thrown error is `Except.error` carrying the error message.
-/

namespace IronSessionSpec

/-- Number of seconds of permitted clock skew for incoming expirations
(`TIMESTAMP_SKEW_SEC` in the source). -/
def TIMESTAMP_SKEW_SEC : Int := 60

/-- `MAX_TTL` in the source: 2^31 − 1 seconds. -/
def MAX_TTL : Int := 2147483647

/-- `DEFAULT_TTL` in the source: 30 days in seconds. -/
def DEFAULT_TTL : Int := 30 * 24 * 60 * 60

/-- `MAX_COOKIE_SIZE` in the source: 4096 bytes. -/
def MAX_COOKIE_SIZE : Nat := 4096

/-- Decidable equality of `Except` results, used to evaluate the model
at concrete inputs. -/
instance {ε α : Type} [DecidableEq ε] [DecidableEq α] : DecidableEq (Except ε α) :=
  fun a b =>
    match a, b with
    | .ok x, .ok y => decidable_of_iff (x = y) (by simp)
    | .error e, .error f => decidable_of_iff (e = f) (by simp)
    | .ok _, .error _ => isFalse (by simp)
    | .error _, .ok _ => isFalse (by simp)

/-- Structural model of JavaScript's `String.prototype.startsWith`:
does `pre` occur as a prefix of `s`? -/
def strStartsWith (s pre : String) : Bool :=
  pre.data.isPrefixOf s.data

/-- Session payload bag. The bag is a JSON object mapping string keys to
JSON-serializable values; values are modelled opaquely as strings (their
internal structure is never inspected by this library), and deep equality
of bags is structural equality of this representation. -/
abbrev Bag := List (String × String)

/-- A seal-time password: `Iron.password.Secret` restricted to the
`{id, secret}` object form that this library always produces. -/
structure SealPassword where
  id : String
  secret : String
deriving DecidableEq

/-- An unseal-time password: `Iron.password.Hash`, a JavaScript object
mapping password ids to secrets.  Modelled as an association list with
unique keys (JavaScript object semantics: property assignment replaces
an existing binding, lookup finds the current binding). -/
abbrev UnsealPassword := List (String × String)

/-- The subset of `Iron.SealOptions` this library reads or writes:
`ttl` (milliseconds) and `timestampSkewSec`.  The remaining options
(algorithms, iteration counts) are passed through unmodified and are
not observable at this interface. -/
structure SealOptions where
  ttl : Int
  timestampSkewSec : Int
deriving DecidableEq

/-- Modelled from the spec: `Iron.defaults` of the underlying primitive,
restricted to the observable fields — no expiration by default
(`ttl = 0`) and a 60-second timestamp skew. -/
def Iron.defaults : SealOptions := { ttl := 0, timestampSkewSec := 60 }

/-- Modelled from the spec: the content of a well-formed sealed token as
the opaque primitive binds it — the id of the password that sealed it,
the secret its MAC was computed under, the encrypted payload, and an
optional expiration timestamp (milliseconds). -/
structure Token where
  keyId : String
  macSecret : String
  payload : Bag
  expiration : Option Int
deriving DecidableEq

/-- Modelled from the spec: input to the unseal primitive — either a
well-formed token or a malformed string the primitive cannot parse. -/
inductive SealedInput where
  | token (t : Token)
  | malformed (raw : String)
deriving DecidableEq

/-- Modelled from the spec: `Iron.seal` of the `@hapi/iron` primitive at
its interface boundary.  Sealing binds the password id and secret and the
payload into the token; a nonzero `ttl` stamps the expiration
`now + ttl` (milliseconds), a zero `ttl` leaves the token unexpiring. -/
def Iron.seal (bag : Bag) (password : SealPassword) (opts : SealOptions) (now : Int) :
    SealedInput :=
  .token
    { keyId := password.id
      macSecret := password.secret
      payload := bag
      expiration := if opts.ttl = 0 then none else some (now + opts.ttl) }

/-- Modelled from the spec: the password-lookup and MAC step of
`Iron.unseal` — the key id embedded in the token must be present in the
unseal password mapping (else `Cannot find password: id`), and the MAC
must verify under the looked-up secret (else `Bad hmac value`). -/
def Iron.unsealKey (t : Token) (password : UnsealPassword) : Except String Bag :=
  match password.lookup t.keyId with
  | none => .error ("Cannot find password: " ++ t.keyId)
  | some secret =>
    if secret = t.macSecret then .ok t.payload else .error "Bad hmac value"

/-- Modelled from the spec: `Iron.unseal` of the `@hapi/iron` primitive
at its interface boundary.  A malformed input fails with a parse error;
an expired token (expiration at or before `now` minus the permitted
skew) fails with `Expired seal`; otherwise the password-lookup and MAC
step runs. -/
def Iron.unseal (input : SealedInput) (password : UnsealPassword) (opts : SealOptions)
    (now : Int) : Except String Bag :=
  match input with
  | .malformed _ => .error "Incorrect number of sealed components"
  | .token t =>
    match t.expiration with
    | some e =>
      if e ≤ now - opts.timestampSkewSec * 1000 then .error "Expired seal"
      else Iron.unsealKey t password
    | none => Iron.unsealKey t password

/-- `IronDenormalizedPassword` in the source: a single secret string or a
list of `{id, secret}` pairs. -/
inductive IronDenormalizedPassword where
  | str (s : String)
  | list (l : List SealPassword)
deriving DecidableEq

/-- Error message thrown by both password normalizations on empty input. -/
def emptyPasswordMsg : String := "Empty IronStore argument: `password`"

/-- The state of an `IronStore` instance: its private fields `unsealed`,
`sealPassword`, `unsealPassword` and `sealOptions`. -/
structure IronStore where
  unsealed : Bag
  sealPassword : SealPassword
  unsealPassword : UnsealPassword
  sealOptions : SealOptions
deriving DecidableEq

/-- `IronStore.normalizeSealPassword`: an empty input (empty string or
empty list, both have `.length` falsy) throws; a single secret string is
wrapped with the implicit id `"1"`; a list yields its first element. -/
def IronStore.normalizeSealPassword :
    IronDenormalizedPassword → Except String SealPassword
  | .str s => if s.isEmpty then .error emptyPasswordMsg else .ok { id := "1", secret := s }
  | .list [] => .error emptyPasswordMsg
  | .list (p :: _) => .ok p

/-- JavaScript object property assignment `obj[k] = v` on the
association-list model of an object: replace the existing binding of `k`
if there is one, otherwise append a new binding. -/
def jsObjInsert : UnsealPassword → String → String → UnsealPassword
  | [], k, v => [(k, v)]
  | (k2, v2) :: rest, k, v =>
    if k2 = k then (k, v) :: rest else (k2, v2) :: jsObjInsert rest k v

/-- `IronStore.normalizeUnsealPassword`: an empty input throws; a single
secret string yields the one-entry object `{1: secret}` (whose JavaScript
property key is the string `"1"`); a list is folded into an object
mapping every element's id to its secret, later entries overwriting
earlier ones with the same id. -/
def IronStore.normalizeUnsealPassword :
    IronDenormalizedPassword → Except String UnsealPassword
  | .str s => if s.isEmpty then .error emptyPasswordMsg else .ok [("1", s)]
  | .list [] => .error emptyPasswordMsg
  | .list (p :: rest) =>
    .ok ((p :: rest).foldl (fun m q => jsObjInsert m q.id q.secret) [])

/-- The `IronStore` constructor: normalize the password both ways, spread
`Iron.defaults` and overwrite `ttl` with the configured TTL converted
from seconds to milliseconds, and start with an empty bag. -/
def IronStore.make (password : IronDenormalizedPassword) (ttl : Int) :
    Except String IronStore := do
  let sp ← IronStore.normalizeSealPassword password
  let up ← IronStore.normalizeUnsealPassword password
  .ok
    { unsealed := []
      sealPassword := sp
      unsealPassword := up
      sealOptions := { Iron.defaults with ttl := ttl * 1000 } }

/-- `IronStore.get`: read a key of the bag (the source deep-copies the
value; copying is the identity on the opaque value model). -/
def IronStore.get (st : IronStore) (key : String) : Option String :=
  st.unsealed.lookup key

/-- `IronStore.clear`: reset the bag to the empty object. -/
def IronStore.clear (st : IronStore) : IronStore :=
  { st with unsealed := [] }

/-- `IronStore.seal`: seal the current bag under the seal password and
the store's seal options. -/
def IronStore.seal (st : IronStore) (now : Int) : SealedInput :=
  Iron.seal st.unsealed st.sealPassword st.sealOptions now

/-- `IronStore.unseal` on an already-parsed sealed input: on success
replace the bag and return `true`; on failure rethrow unless the error
message is one of the three recognized recoverable messages, in which
case return `false` with the bag unchanged.  The returned store is the
state of `this` after the call. -/
def IronStore.unsealInput (st : IronStore) (input : SealedInput) (now : Int) :
    Except String (IronStore × Bool) :=
  match Iron.unseal input st.unsealPassword st.sealOptions now with
  | .ok bag => .ok ({ st with unsealed := bag }, true)
  | .error msg =>
    if msg ≠ "Expired seal" ∧ msg ≠ "Bad hmac value" ∧
        ¬ strStartsWith msg "Cannot find password: " then
      .error msg
    else
      .ok (st, false)

/-- Split a character list at every occurrence of the separator
character (structural model of splitting a string on a one-character
separator; the empty input yields one empty field). -/
def splitOnChar (c : Char) : List Char → List (List Char)
  | [] => [[]]
  | x :: xs =>
    if x = c then [] :: splitOnChar c xs
    else
      match splitOnChar c xs with
      | [] => [[x]]
      | y :: ys => (x :: y) :: ys

/-- Split a string on a one-character separator. -/
def strSplitOnChar (c : Char) (s : String) : List String :=
  (splitOnChar c s.data).map String.mk

/-- Strip leading and trailing spaces (structural model of trimming). -/
def strTrim (s : String) : String :=
  String.mk
    (((s.data.dropWhile fun c => c = ' ').reverse.dropWhile fun c => c = ' ').reverse)

/-- Serialization of a bag inside the modelled token string format. -/
def encodeBag (b : Bag) : String :=
  String.intercalate "&" (b.map fun kv => kv.1 ++ "=" ++ kv.2)

/-- Modelled from the spec: the opaque string form of a sealed token.
The real format belongs to the primitive; the model uses a
`*`-separated rendering of the token's observable fields. -/
def tokenEncode : SealedInput → String
  | .malformed raw => raw
  | .token t =>
    t.keyId ++ "*" ++ t.macSecret ++ "*" ++
      (match t.expiration with | some e => toString e | none => "") ++ "*" ++
      encodeBag t.payload

/-- Parse of the bag part of the modelled token string format. -/
def parseBagString (s : String) : Bag :=
  if s.isEmpty then []
  else
    (strSplitOnChar '&' s).filterMap fun kv =>
      match strSplitOnChar '=' kv with
      | [k, v] => some (k, v)
      | _ => none

/-- Modelled from the spec: the primitive's parse of a sealed string.
A string that does not match the token format is malformed and makes the
primitive fail with a non-recoverable parse error. -/
def parseSealedString (s : String) : SealedInput :=
  match strSplitOnChar '*' s with
  | [kid, sec, expStr, payload] =>
    if expStr.isEmpty then
      .token { keyId := kid, macSecret := sec, payload := parseBagString payload,
               expiration := none }
    else
      match expStr.toInt? with
      | some e =>
        .token { keyId := kid, macSecret := sec, payload := parseBagString payload,
                 expiration := some e }
      | none => .malformed s
  | _ => .malformed s

/-- `IronStore.seal` as the source exposes it: the opaque token string. -/
def IronStore.sealString (st : IronStore) (now : Int) : String :=
  tokenEncode (st.seal now)

/-- `IronStore.unseal` on the opaque token string, as called from
`IronSession.restore`. -/
def IronStore.unseal (st : IronStore) (sealed : String) (now : Int) :
    Except String (IronStore × Bool) :=
  st.unsealInput (parseSealedString sealed) now

/-- The subset of `cookie.CookieSerializeOptions` this library reads or
writes.  Field defaults are the source's `DEFAULT_COOKIE_OPTIONS` (with
`secure` depending on the environment, supplied at use sites). -/
structure CookieOptions where
  httpOnly : Bool := true
  path : Option String := some "/"
  sameSite : Option String := some "lax"
  secure : Bool := false
  maxAge : Option Int := none
deriving DecidableEq

/-- `DEFAULT_COOKIE_OPTIONS` in the source; `production` tells whether
`process.env.NODE_ENV` is `production`. -/
def DEFAULT_COOKIE_OPTIONS (production : Bool) : CookieOptions :=
  { httpOnly := true, path := some "/", sameSite := some "lax",
    secure := production, maxAge := none }

/-- `IronSessionOptions` in the source; every field is optional. -/
structure IronSessionOptions where
  cookieName : Option String := none
  cookieOptions : Option CookieOptions := none
  password : Option IronDenormalizedPassword := none
  ttl : Option Int := none
deriving DecidableEq

/-- The optional chain `sessionOptions?.cookieOptions?.maxAge`. -/
def maxAgeOverrideOf (so : Option IronSessionOptions) : Option Int :=
  (so.bind fun o => o.cookieOptions).bind fun c => c.maxAge

/-- The expression `sessionOptions?.ttl ?? DEFAULT_TTL`. -/
def ttlOrDefault (so : Option IronSessionOptions) : Int :=
  (so.bind fun o => o.ttl).getD DEFAULT_TTL

/-- `getCookieMaxAge`: a truthy (present and nonzero) explicit max-age
override yields `min(override, MAX_TTL)`; otherwise the max-age is
derived from the TTL minus the clock-skew allowance, bounded by
`MAX_TTL`. -/
def getCookieMaxAge (so : Option IronSessionOptions) : Int :=
  if (maxAgeOverrideOf so).getD 0 ≠ 0 then
    min ((maxAgeOverrideOf so).getD 0) MAX_TTL
  else
    min (ttlOrDefault so - TIMESTAMP_SKEW_SEC) MAX_TTL

/-- `getCookieSerializeOptions`: the explicit cookie options spread over
the defaults, with `maxAge` always overwritten by `getCookieMaxAge`. -/
def getCookieSerializeOptions (production : Bool) (so : Option IronSessionOptions) :
    CookieOptions :=
  let base := (so.bind fun o => o.cookieOptions).getD (DEFAULT_COOKIE_OPTIONS production)
  { base with maxAge := some (getCookieMaxAge so) }

/-- Modelled from the spec: the `cookie` codec's `serialize` — the
`name=value` pair followed by the standard attributes present in the
options. -/
def cookieSerialize (cookieName value : String) (o : CookieOptions) : String :=
  cookieName ++ "=" ++ value ++
    (match o.maxAge with | some m => "; Max-Age=" ++ toString m | none => "") ++
    (match o.path with | some p => "; Path=" ++ p | none => "") ++
    (if o.httpOnly then "; HttpOnly" else "") ++
    (match o.sameSite with | some ss => "; SameSite=" ++ ss | none => "") ++
    (if o.secure then "; Secure" else "")

/-- Modelled from the spec: the `cookie` codec's `parse` — split the
header on `;`, split each pair on the first `=`, trim the parts. -/
def cookieParse (s : String) : List (String × String) :=
  (strSplitOnChar ';' s).filterMap fun pair =>
    match strSplitOnChar '=' pair with
    | k :: v :: rest =>
      some (strTrim k, strTrim (String.intercalate "=" (v :: rest)))
    | _ => none

/-- The `Set-Cookie` header slot of a Node response: absent, a single
string value, or an array of string values. -/
inductive SetCookieHeaderValue where
  | absent
  | single (s : String)
  | multiple (l : List String)
deriving DecidableEq

/-- The list of values held by the header slot, as the source's
`[res.getHeader(..) || []].flat().map(String)` computes it. -/
def SetCookieHeaderValue.values : SetCookieHeaderValue → List String
  | .absent => []
  | .single s => [s]
  | .multiple l => l

/-- A Node response, restricted to the observable `Set-Cookie` header. -/
structure Response where
  setCookieHeader : SetCookieHeaderValue
deriving DecidableEq

/-- `setResponseCookie`: gather the existing `Set-Cookie` values and set
the header to that list with the new serialized cookie appended. -/
def setResponseCookie (res : Response) (serializedCookie : String) : Response :=
  { res with
    setCookieHeader := .multiple (res.setCookieHeader.values ++ [serializedCookie]) }

/-- A Node request, restricted to what the library reads: the optional
pre-parsed `req.cookies` mapping added by upstream middleware, and the
raw `Cookie` header. -/
structure Request where
  cookies : Option (List (String × String))
  cookieHeader : Option String
deriving DecidableEq

/-- `getRequestCookie`: prefer the pre-parsed `req.cookies` mapping when
the request has one (even an empty one); otherwise parse the raw
`Cookie` header (defaulting to the empty string) and look the name up
there. -/
def getRequestCookie (req : Request) (cookieName : String) : Option String :=
  match req.cookies with
  | some m => m.lookup cookieName
  | none => (cookieParse (req.cookieHeader.getD "")).lookup cookieName

/-- The state of an `IronSession` instance: its request, its response,
the resolved cookie name and cookie options, and the backing store. -/
structure IronSession where
  req : Request
  res : Response
  cookieName : String
  cookieOptions : CookieOptions
  store : IronStore
deriving DecidableEq

/-- The options spread `{...cookieOptions, maxAge: 0}` used by
`writeCookie` for a falsy value. -/
def withMaxAgeZero (o : CookieOptions) : CookieOptions :=
  { o with maxAge := some 0 }

/-- `IronSession.writeCookie`: an empty (falsy) value forces
`maxAge: 0`; the cookie is serialized, a serialization longer than
`MAX_COOKIE_SIZE` throws before anything is written, and otherwise the
serialized cookie is appended to the response. -/
def IronSession.writeCookie (s : IronSession) (value : String) :
    Except String IronSession :=
  let options := if value.isEmpty then withMaxAgeZero s.cookieOptions
    else s.cookieOptions
  let serialized := cookieSerialize s.cookieName value options
  if MAX_COOKIE_SIZE < serialized.length then
    .error ("IronSession cookie length is too big: " ++ toString serialized.length)
  else
    .ok { s with res := setResponseCookie s.res serialized }

/-- `IronSession.restore`: read the cookie; a missing or empty (falsy)
value returns `false` without unsealing; otherwise the result is exactly
the store's unseal of the value. -/
def IronSession.restore (s : IronSession) (now : Int) :
    Except String (IronSession × Bool) :=
  match getRequestCookie s.req s.cookieName with
  | some sealed =>
    if sealed.isEmpty then .ok (s, false)
    else
      match s.store.unseal sealed now with
      | .ok (st, b) => .ok ({ s with store := st }, b)
      | .error e => .error e
  | none => .ok (s, false)

/-- `IronSession.save`: seal the store's current bag and write it as the
session cookie. -/
def IronSession.save (s : IronSession) (now : Int) : Except String IronSession :=
  s.writeCookie (s.store.sealString now)

/-- `IronSession.destroy`: clear the store's bag, then write the empty
cookie value. -/
def IronSession.destroy (s : IronSession) : Except String IronSession :=
  IronSession.writeCookie { s with store := s.store.clear } ""

/-- The serialized session cookie that `save` writes (its value is the
sealed token, which is never the empty string). -/
def savedCookie (s : IronSession) (now : Int) : String :=
  cookieSerialize s.cookieName (s.store.sealString now) s.cookieOptions

/-! ## Helper lemmas on the JavaScript-object model -/

theorem jsObjInsert_lookup_self (m : UnsealPassword) (k v : String) :
    (jsObjInsert m k v).lookup k = some v := by
  induction m with
  | nil => simp [jsObjInsert, List.lookup]
  | cons hd tl ih =>
    obtain ⟨k2, v2⟩ := hd
    by_cases hk : k2 = k
    · simp [jsObjInsert, hk, List.lookup]
    · have hb : (k == k2) = false := by
        simp only [beq_eq_false_iff_ne, ne_eq]
        exact fun hc => hk hc.symm
      simp [jsObjInsert, hk, List.lookup, hb, ih]

theorem jsObjInsert_lookup_other (m : UnsealPassword) (k v k2 : String) (h : k2 ≠ k) :
    (jsObjInsert m k v).lookup k2 = m.lookup k2 := by
  have hb : (k2 == k) = false := by
    simp only [beq_eq_false_iff_ne, ne_eq]
    exact h
  induction m with
  | nil => simp [jsObjInsert, List.lookup, hb]
  | cons hd tl ih =>
    obtain ⟨k3, v3⟩ := hd
    by_cases hk : k3 = k
    · subst hk
      simp [jsObjInsert, List.lookup, hb]
    · simp [jsObjInsert, hk, List.lookup, ih]

theorem foldl_jsObjInsert_preserve (l : List SealPassword) (k v : String)
    (hne : ∀ q ∈ l, q.id ≠ k) :
    ∀ acc : UnsealPassword, acc.lookup k = some v →
      (l.foldl (fun m q => jsObjInsert m q.id q.secret) acc).lookup k = some v := by
  induction l with
  | nil => intro acc h; simpa using h
  | cons hd tl ih =>
    intro acc h
    simp only [List.foldl_cons]
    refine ih (fun q hq => hne q (List.mem_cons_of_mem _ hq)) _ ?_
    rw [jsObjInsert_lookup_other]
    · exact h
    · exact Ne.symm (hne hd (List.mem_cons_self _ _))

theorem foldl_jsObjInsert_lookup (l : List SealPassword) (q : SealPassword)
    (hq : q ∈ l) (hnd : (l.map SealPassword.id).Nodup) :
    ∀ acc : UnsealPassword,
      (l.foldl (fun m r => jsObjInsert m r.id r.secret) acc).lookup q.id
        = some q.secret := by
  induction l with
  | nil => cases hq
  | cons hd tl ih =>
    intro acc
    simp only [List.map_cons, List.nodup_cons] at hnd
    simp only [List.foldl_cons]
    rcases List.mem_cons.mp hq with rfl | h
    · refine foldl_jsObjInsert_preserve tl q.id q.secret ?_ _
        (jsObjInsert_lookup_self acc q.id q.secret)
      intro r hr hcontra
      exact hnd.1 (hcontra ▸ List.mem_map_of_mem SealPassword.id hr)
    · exact ih h hnd.2 _

/-! ## Claims -/

/-- The three recoverable unseal failure conditions, identified by the
error messages the primitive raises for them: an expired seal, a failed
MAC verification, and a key id not present in the configured unseal
password mapping. -/
def recoverableIronError (msg : String) : Bool :=
  msg == "Expired seal" || msg == "Bad hmac value" ||
    strStartsWith msg "Cannot find password: "

/-- Claim C1: `unseal(token)` returns `false` exactly when the underlying
unseal primitive fails with one of the three recoverable conditions
(expired seal, failed MAC verification, or a key id not present in the
configured unseal password mapping), and in that case the in-memory bag
is left unchanged and no error is raised; any other unseal failure
propagates to the caller as an error, and the bag is replaced by the
decrypted payload only when unseal returns `true`. -/
theorem c1_unseal_failure_taxonomy (st : IronStore) (input : SealedInput) (now : Int) :
    (∀ bag, Iron.unseal input st.unsealPassword st.sealOptions now = .ok bag →
      st.unsealInput input now = .ok ({ st with unsealed := bag }, true)) ∧
    (∀ msg, Iron.unseal input st.unsealPassword st.sealOptions now = .error msg →
      (recoverableIronError msg = true → st.unsealInput input now = .ok (st, false)) ∧
      (recoverableIronError msg = false → st.unsealInput input now = .error msg)) := by
  refine ⟨fun bag h => ?_, fun msg h => ⟨fun hrec => ?_, fun hrec => ?_⟩⟩
  · simp [IronStore.unsealInput, h]
  · have hrec2 : msg = "Expired seal" ∨ msg = "Bad hmac value" ∨
        strStartsWith msg "Cannot find password: " = true := by
      simpa [recoverableIronError, Bool.or_eq_true, or_assoc] using hrec
    have hno : ¬ (msg ≠ "Expired seal" ∧ msg ≠ "Bad hmac value" ∧
        ¬ strStartsWith msg "Cannot find password: " = true) := by
      rcases hrec2 with h1 | h1 | h1
      · exact fun hc => hc.1 h1
      · exact fun hc => hc.2.1 h1
      · exact fun hc => hc.2.2 h1
    simp only [IronStore.unsealInput, h]
    rw [if_neg hno]
  · have hrec2 : ¬ msg = "Expired seal" ∧ ¬ msg = "Bad hmac value" ∧
        strStartsWith msg "Cannot find password: " = false := by
      simpa [recoverableIronError, Bool.or_eq_true, not_or, and_assoc] using hrec
    have hyes : msg ≠ "Expired seal" ∧ msg ≠ "Bad hmac value" ∧
        ¬ strStartsWith msg "Cannot find password: " = true := by
      refine ⟨hrec2.1, hrec2.2.1, ?_⟩
      simp [hrec2.2.2]
    simp only [IronStore.unsealInput, h]
    rw [if_pos hyes]

/-- A concrete store for the claim C1 witness. -/
def c1store : IronStore :=
  { unsealed := [("k", "v")], sealPassword := { id := "1", secret := "s" },
    unsealPassword := [("1", "s")],
    sealOptions := { ttl := 60000, timestampSkewSec := 60 } }

/-- A concrete expired token for the claim C1 witness. -/
def c1expired : SealedInput :=
  .token { keyId := "1", macSecret := "s", payload := [], expiration := some (-100000) }

/-- Witness for claim C1: at a concrete expired token, unseal returns
`false` and leaves the bag unchanged. -/
theorem c1_unseal_failure_taxonomy_witness :
    c1store.unsealInput c1expired 0 = .ok (c1store, false) :=
  ((c1_unseal_failure_taxonomy c1store c1expired 0).2 "Expired seal" (by decide)).1
    (by decide)

/-- Counterexample for claim C4: constructing a store with a TTL of 2^31
seconds (above the claimed 2^31 − 1 bound) hands the primitive a TTL of
2^31 × 1000 milliseconds — the claimed bound is not applied to the TTL
passed to the sealing primitive. -/
theorem c4_ttl_unbounded_counterexample :
    (IronStore.make (.str "secret") 2147483648).map (fun st => st.sealOptions.ttl)
      = .ok 2147483648000 ∧ MAX_TTL * 1000 < 2147483648000 := by
  constructor
  · decide
  · decide

/-- Claim C4 as amended: the TTL handed to the sealing/unsealing
primitive is exactly the configured TTL times 1000 (seconds to
milliseconds), with no bound applied; the 2^31 − 1 bound exists only in
the cookie max-age computation. -/
theorem c4_ttl_times_1000 (p : IronDenormalizedPassword) (ttl : Int) (st : IronStore)
    (h : IronStore.make p ttl = .ok st) :
    st.sealOptions.ttl = ttl * 1000 ∧ st.sealOptions.timestampSkewSec = 60 := by
  cases hsp : IronStore.normalizeSealPassword p with
  | error e => simp [IronStore.make, hsp, bind, Except.bind] at h
  | ok sp =>
    cases hup : IronStore.normalizeUnsealPassword p with
    | error e => simp [IronStore.make, hsp, hup, bind, Except.bind] at h
    | ok up =>
      simp only [IronStore.make, hsp, hup, bind, Except.bind, Except.ok.injEq] at h
      subst h
      exact ⟨rfl, rfl⟩

/-- Witness for claim C4 (amended): a concrete store built with a
5-second TTL holds 5000 milliseconds in its seal options. -/
theorem c4_ttl_times_1000_witness :
    (IronStore.sealOptions
        { unsealed := [], sealPassword := { id := "1", secret := "s" },
          unsealPassword := [("1", "s")],
          sealOptions := { ttl := 5000, timestampSkewSec := 60 } }).ttl = 5 * 1000 :=
  (c4_ttl_times_1000 (.str "s") 5
    { unsealed := [], sealPassword := { id := "1", secret := "s" },
      unsealPassword := [("1", "s")],
      sealOptions := { ttl := 5000, timestampSkewSec := 60 } } (by decide)).1

/-- Claim C5: password normalization is a pure function of the
denormalized input — a single secret string yields the seal form
`{id: "1", secret}` and the one-entry unseal mapping under key `"1"`; a
non-empty list yields its first element as the seal form and an unseal
mapping sending every listed element's id to its secret; and both
normalizations raise a configuration error on empty input (empty string
or empty list). -/
theorem c5_password_normalization :
    (∀ s : String, ¬ s.isEmpty →
      IronStore.normalizeSealPassword (.str s) = .ok { id := "1", secret := s }) ∧
    (∀ p l, IronStore.normalizeSealPassword (.list (p :: l)) = .ok p) ∧
    (∀ s : String, ¬ s.isEmpty →
      IronStore.normalizeUnsealPassword (.str s) = .ok [("1", s)]) ∧
    (∀ l : List SealPassword, (l.map SealPassword.id).Nodup →
      ∀ up, IronStore.normalizeUnsealPassword (.list l) = .ok up →
        ∀ q ∈ l, up.lookup q.id = some q.secret) ∧
    (IronStore.normalizeSealPassword (.str "") = .error emptyPasswordMsg) ∧
    (IronStore.normalizeSealPassword (.list []) = .error emptyPasswordMsg) ∧
    (IronStore.normalizeUnsealPassword (.str "") = .error emptyPasswordMsg) ∧
    (IronStore.normalizeUnsealPassword (.list []) = .error emptyPasswordMsg) := by
  refine ⟨fun s hs => ?_, fun p l => rfl, fun s hs => ?_, fun l hnd up hup q hq => ?_,
    rfl, rfl, rfl, rfl⟩
  · simp [IronStore.normalizeSealPassword, hs]
  · simp [IronStore.normalizeUnsealPassword, hs]
  · cases l with
    | nil => cases hq
    | cons p rest =>
      have : up = (p :: rest).foldl (fun m q => jsObjInsert m q.id q.secret) [] := by
        simpa [IronStore.normalizeUnsealPassword] using hup.symm
      subst this
      exact foldl_jsObjInsert_lookup (p :: rest) q hq hnd []

/-- Witness for claim C5: the single-string form at `"abc"`, and a
two-entry rotation list in which the retired id `"1"` still maps to its
own secret. -/
theorem c5_password_normalization_witness :
    IronStore.normalizeSealPassword (.str "abc") = .ok { id := "1", secret := "abc" } ∧
    ∀ up, IronStore.normalizeUnsealPassword
        (.list [{ id := "2", secret := "new" }, { id := "1", secret := "old" }]) = .ok up →
      up.lookup "1" = some "old" :=
  ⟨c5_password_normalization.1 "abc" (by decide),
   fun up hup =>
     c5_password_normalization.2.2.2.1
       [{ id := "2", secret := "new" }, { id := "1", secret := "old" }] (by decide)
       up hup { id := "1", secret := "old" } (by decide)⟩

/-- Round trip at the primitive interface: a seal immediately unsealed
with a password mapping that sends the sealing id to the sealing secret
recovers the payload. -/
theorem roundtrip_core (B : Bag) (sp : SealPassword) (up : UnsealPassword)
    (opts : SealOptions) (now : Int)
    (hl : up.lookup sp.id = some sp.secret)
    (httl : 0 ≤ opts.ttl) (hskew : 0 ≤ opts.timestampSkewSec) :
    Iron.unseal (Iron.seal B sp opts now) up opts now = .ok B := by
  simp only [Iron.seal, Iron.unseal]
  by_cases h0 : opts.ttl = 0
  · simp [h0, Iron.unsealKey, hl]
  · rw [if_neg h0]
    have hexp : ¬ (now + opts.ttl ≤ now - opts.timestampSkewSec * 1000) := by omega
    simp [hexp, Iron.unsealKey, hl]

/-- Valid password material in the sense of claim C2: non-empty, and in
the list form the rotation ids are pairwise distinct (a duplicated id
would be remapped to the later secret by the unseal normalization). -/
def validPasswordMaterial : IronDenormalizedPassword → Prop
  | .str s => ¬ s.isEmpty
  | .list l => l ≠ [] ∧ (l.map SealPassword.id).Nodup

/-- Claim C2: for every bag `B`, valid non-empty password material
(including the single-secret-string form, whose unseal mapping key `"1"`
matches the implicit seal id `"1"`), and valid (non-negative) TTL,
sealing a store holding `B` and immediately unsealing the resulting
token on a store configured with the same password yields `true` and a
bag deep-equal to `B`. -/
theorem c2_seal_unseal_roundtrip (B : Bag) (p : IronDenormalizedPassword)
    (ttl now : Int) (httl : 0 ≤ ttl) (hvalid : validPasswordMaterial p)
    (st : IronStore) (hmk : IronStore.make p ttl = .ok st) :
    st.unsealInput (IronStore.seal { st with unsealed := B } now) now
      = .ok ({ st with unsealed := B }, true) := by
  have httl1000 : 0 ≤ ttl * 1000 := by omega
  cases p with
  | str s =>
    have hs : ¬ s.isEmpty := hvalid
    have hs2 : s.isEmpty = false := by
      cases hb : s.isEmpty
      · rfl
      · exact absurd hb hs
    simp only [IronStore.make, IronStore.normalizeSealPassword,
      IronStore.normalizeUnsealPassword, hs2, Bool.false_eq_true, if_false, bind,
      Except.bind, Iron.defaults, Except.ok.injEq] at hmk
    subst hmk
    have hcore := roundtrip_core B { id := "1", secret := s } [("1", s)]
      { ttl := ttl * 1000, timestampSkewSec := 60 } now (by simp [List.lookup])
      httl1000 (by norm_num)
    simp [IronStore.unsealInput, IronStore.seal, hcore]
  | list l =>
    obtain ⟨hne, hnd⟩ := hvalid
    cases l with
    | nil => exact absurd rfl hne
    | cons q rest =>
      simp only [IronStore.make, IronStore.normalizeSealPassword,
        IronStore.normalizeUnsealPassword, bind, Except.bind, Iron.defaults,
        Except.ok.injEq] at hmk
      subst hmk
      have hl : ((q :: rest).foldl (fun m r => jsObjInsert m r.id r.secret) []).lookup q.id
          = some q.secret :=
        foldl_jsObjInsert_lookup (q :: rest) q (List.mem_cons_self q rest) hnd []
      have hcore := roundtrip_core B q
        ((q :: rest).foldl (fun m r => jsObjInsert m r.id r.secret) [])
        { ttl := ttl * 1000, timestampSkewSec := 60 } now hl httl1000 (by norm_num)
      simp only [List.foldl_cons] at hcore
      simp [IronStore.unsealInput, IronStore.seal, hcore]

/-- Witness for claim C2: a concrete round trip under a two-entry
rotation list, sealing the bag `[("user", "alice")]` under id `"2"` and
unsealing it back successfully. -/
theorem c2_seal_unseal_roundtrip_witness :
    IronStore.unsealInput
      { unsealed := [], sealPassword := { id := "2", secret := "new" },
        unsealPassword := [("2", "new"), ("1", "old")],
        sealOptions := { ttl := 60000, timestampSkewSec := 60 } }
      (IronStore.seal
        { unsealed := [("user", "alice")],
          sealPassword := { id := "2", secret := "new" },
          unsealPassword := [("2", "new"), ("1", "old")],
          sealOptions := { ttl := 60000, timestampSkewSec := 60 } } 0) 0
      = .ok ({ unsealed := [("user", "alice")],
               sealPassword := { id := "2", secret := "new" },
               unsealPassword := [("2", "new"), ("1", "old")],
               sealOptions := { ttl := 60000, timestampSkewSec := 60 } }, true) :=
  c2_seal_unseal_roundtrip [("user", "alice")]
    (.list [{ id := "2", secret := "new" }, { id := "1", secret := "old" }]) 60 0
    (by norm_num) ⟨by decide, by decide⟩
    { unsealed := [], sealPassword := { id := "2", secret := "new" },
      unsealPassword := [("2", "new"), ("1", "old")],
      sealOptions := { ttl := 60000, timestampSkewSec := 60 } } (by decide)

/-- Counterexample for claim C3: with TTL 100 seconds and an explicit
max-age override of 1000000 seconds, the computed max-age is 1000000 —
not the claimed three-way minimum, and far above TTL − 60. -/
theorem c3_maxage_counterexample :
    getCookieMaxAge
        (some { cookieOptions := some { maxAge := some 1000000 }, ttl := some 100 })
      ≠ min (min 1000000 (100 - TIMESTAMP_SKEW_SEC)) MAX_TTL := by
  decide

/-- Claim C3 as amended: a present, nonzero max-age override yields
`min(override, 2^31 − 1)` — the TTL − 60 skew bound is not applied to
overrides; only when the override is absent (or zero, which is falsy)
is the max-age `min(ttl − 60, 2^31 − 1)`.  The serialize options always
carry this computed max-age. -/
theorem c3_cookie_maxage (so : Option IronSessionOptions) :
    (∀ m, maxAgeOverrideOf so = some m → m ≠ 0 →
      getCookieMaxAge so = min m MAX_TTL) ∧
    ((maxAgeOverrideOf so = none ∨ maxAgeOverrideOf so = some 0) →
      getCookieMaxAge so = min (ttlOrDefault so - TIMESTAMP_SKEW_SEC) MAX_TTL) ∧
    (∀ production, (getCookieSerializeOptions production so).maxAge
      = some (getCookieMaxAge so)) := by
  refine ⟨fun m hm hm0 => ?_, fun h => ?_, fun production => rfl⟩
  · simp [getCookieMaxAge, hm, hm0]
  · rcases h with h | h <;> simp [getCookieMaxAge, h]

/-- Witness for claim C3 (amended): the override branch at the
counterexample configuration, and the derived branch at TTL 100 with no
override. -/
theorem c3_cookie_maxage_witness :
    getCookieMaxAge
        (some { cookieOptions := some { maxAge := some 1000000 }, ttl := some 100 })
      = min 1000000 MAX_TTL ∧
    getCookieMaxAge (some { ttl := some 100 })
      = min (100 - TIMESTAMP_SKEW_SEC) MAX_TTL :=
  ⟨(c3_cookie_maxage
      (some { cookieOptions := some { maxAge := some 1000000 }, ttl := some 100 })).1
      1000000 (by decide) (by decide),
   by
    have h := (c3_cookie_maxage (some { ttl := some 100 })).2.1 (Or.inl (by decide))
    simpa [ttlOrDefault] using h⟩

/-- A sealed token string is never the empty string (it always contains
the format separators), so `writeCookie` sees it as truthy. -/
theorem sealString_not_isEmpty (st : IronStore) (now : Int) :
    (st.sealString now).isEmpty = false := by
  rw [Bool.eq_false_iff, Ne, String.isEmpty_iff]
  intro h
  have hlen := congrArg String.length h
  have hstar : ("*" : String).length = 1 := rfl
  have hzero : ("" : String).length = 0 := rfl
  simp only [IronStore.sealString, IronStore.seal, Iron.seal, tokenEncode,
    String.length_append, hstar, hzero] at hlen
  omega

/-- Unfolding of `writeCookie` at a nonempty (truthy) value. -/
theorem writeCookie_nonempty_value (s : IronSession) (v : String)
    (hv : v.isEmpty = false) :
    s.writeCookie v =
      if MAX_COOKIE_SIZE < (cookieSerialize s.cookieName v s.cookieOptions).length then
        .error ("IronSession cookie length is too big: "
          ++ toString (cookieSerialize s.cookieName v s.cookieOptions).length)
      else
        .ok { s with
          res := setResponseCookie s.res (cookieSerialize s.cookieName v s.cookieOptions) }
    := by
  simp [IronSession.writeCookie, hv]

/-- Unfolding of `writeCookie` at the empty (falsy) value: the options
are the session's cookie options with max-age forced to 0. -/
theorem writeCookie_empty_value (s : IronSession) :
    s.writeCookie "" =
      if MAX_COOKIE_SIZE <
          (cookieSerialize s.cookieName "" (withMaxAgeZero s.cookieOptions)).length then
        .error ("IronSession cookie length is too big: "
          ++ toString (cookieSerialize s.cookieName "" (withMaxAgeZero s.cookieOptions)).length)
      else
        .ok { s with
          res := setResponseCookie s.res
            (cookieSerialize s.cookieName "" (withMaxAgeZero s.cookieOptions)) } := rfl

/-- Claim C6: whenever the serialized session cookie produced by `save`
exceeds `MAX_COOKIE_SIZE` bytes, `save` raises a fatal error and the
response is left unchanged (in this state-passing model, an error result
produces no new response state — nothing is appended); otherwise the
full serialized cookie, never a truncated one, is appended. -/
theorem c6_cookie_size_ceiling (s : IronSession) (now : Int) :
    (MAX_COOKIE_SIZE < (savedCookie s now).length →
      s.save now = .error
        ("IronSession cookie length is too big: "
          ++ toString (savedCookie s now).length)) ∧
    ((savedCookie s now).length ≤ MAX_COOKIE_SIZE →
      s.save now = .ok { s with res := setResponseCookie s.res (savedCookie s now) }) := by
  have hne := sealString_not_isEmpty s.store now
  have heq := writeCookie_nonempty_value s (s.store.sealString now) hne
  have hsave : s.save now = s.writeCookie (s.store.sealString now) := rfl
  constructor
  · intro hbig
    simp only [savedCookie] at hbig ⊢
    rw [hsave, heq, if_pos hbig]
  · intro hsmall
    simp only [savedCookie] at hsmall ⊢
    have hnb : ¬ MAX_COOKIE_SIZE <
        (cookieSerialize s.cookieName (s.store.sealString now) s.cookieOptions).length :=
      Nat.not_lt.mpr hsmall
    rw [hsave, heq, if_neg hnb]

/-- A concrete long payload for the claim C6 witness. -/
def c6longValue : String := String.mk (List.replicate 5000 'a')

/-- A concrete session whose saved cookie exceeds the ceiling, for the
claim C6 witness. -/
def c6session : IronSession :=
  { req := { cookies := none, cookieHeader := none }
    res := { setCookieHeader := .absent }
    cookieName := "sess"
    cookieOptions := {}
    store := { unsealed := [("k", c6longValue)],
               sealPassword := { id := "1", secret := "s" },
               unsealPassword := [("1", "s")],
               sealOptions := { ttl := 60000, timestampSkewSec := 60 } } }

/-- Witness for claim C6: saving the concrete oversized session fails
with the size error. -/
theorem c6_cookie_size_ceiling_witness :
    c6session.save 0 = .error
      ("IronSession cookie length is too big: "
        ++ toString (savedCookie c6session 0).length) := by
  have hv : c6longValue.length = 5000 := by
    simp only [c6longValue, String.length, List.length_replicate]
  have hb : encodeBag [("k", c6longValue)] = "k" ++ "=" ++ c6longValue := rfl
  have hlt : MAX_COOKIE_SIZE < (savedCookie c6session 0).length := by
    simp [savedCookie, c6session, IronStore.sealString, IronStore.seal, Iron.seal,
      tokenEncode, cookieSerialize, hb, String.length_append, hv, MAX_COOKIE_SIZE]
    decide
  exact (c6_cookie_size_ceiling c6session 0).1 hlt

/-- Claim C7: after `destroy()` the in-memory bag is empty (every `get`
returns the absent-value marker), and the `Set-Cookie` value appended to
the response is the serialization of the empty string value under the
session's cookie options with max-age forced to 0, regardless of the
configured max-age. -/
theorem c7_destroy (s s2 : IronSession) (h : s.destroy = .ok s2) :
    s2.store.unsealed = [] ∧ (∀ k, s2.store.get k = none) ∧
    s2.res.setCookieHeader.values =
      s.res.setCookieHeader.values ++
        [cookieSerialize s.cookieName "" (withMaxAgeZero s.cookieOptions)] := by
  have hd : s.destroy = IronSession.writeCookie { s with store := s.store.clear } "" := rfl
  rw [hd, writeCookie_empty_value] at h
  split at h
  · simp at h
  · cases h
    exact ⟨rfl, fun k => rfl, rfl⟩

/-- A concrete session for the claim C7 witness: non-empty bag, an
unrelated cookie already on the response, configured max-age 999. -/
def c7session : IronSession :=
  { req := { cookies := none, cookieHeader := none }
    res := { setCookieHeader := .single "other=1" }
    cookieName := "sess"
    cookieOptions := { maxAge := some 999 }
    store := { unsealed := [("k", "v")],
               sealPassword := { id := "1", secret := "s" },
               unsealPassword := [("1", "s")],
               sealOptions := { ttl := 60000, timestampSkewSec := 60 } } }

/-- The session state after destroying `c7session`. -/
def c7destroyed : IronSession :=
  { c7session with
    store := c7session.store.clear
    res := { setCookieHeader :=
      .multiple ["other=1", "sess=; Max-Age=0; Path=/; HttpOnly; SameSite=lax"] } }

/-- Witness for claim C7: destroying the concrete session empties the
bag and appends the empty-valued, max-age-0 cookie. -/
theorem c7_destroy_witness :
    c7destroyed.store.unsealed = [] ∧ c7destroyed.store.get "k" = none ∧
    c7destroyed.res.setCookieHeader.values =
      c7session.res.setCookieHeader.values ++
        [cookieSerialize c7session.cookieName ""
          (withMaxAgeZero c7session.cookieOptions)] :=
  ⟨(c7_destroy c7session c7destroyed (by decide)).1,
   (c7_destroy c7session c7destroyed (by decide)).2.1 "k",
   (c7_destroy c7session c7destroyed (by decide)).2.2⟩

/-- Claim C8: cookie extraction prefers the pre-parsed request mapping
and falls back to parsing the raw `Cookie` header only when no mapping
exists; `restore` returns `false` without unsealing when no cookie value
is present, and when a (truthy) value is present it returns exactly the
result of unsealing it — the same boolean on success, the same error on
a fatal failure. -/
theorem c8_restore_flow (s : IronSession) (now : Int) :
    ((∀ m, s.req.cookies = some m →
        getRequestCookie s.req s.cookieName = m.lookup s.cookieName) ∧
     (s.req.cookies = none →
        getRequestCookie s.req s.cookieName =
          (cookieParse ((s.req.cookieHeader).getD "")).lookup s.cookieName)) ∧
    (getRequestCookie s.req s.cookieName = none → s.restore now = .ok (s, false)) ∧
    (∀ v, getRequestCookie s.req s.cookieName = some v → v.isEmpty = false →
      (∀ st b, s.store.unseal v now = .ok (st, b) →
        s.restore now = .ok ({ s with store := st }, b)) ∧
      (∀ e, s.store.unseal v now = .error e → s.restore now = .error e)) := by
  refine ⟨⟨fun m hm => ?_, fun hm => ?_⟩, fun habs => ?_,
    fun v hv hvne => ⟨fun st b hu => ?_, fun e hu => ?_⟩⟩
  · simp [getRequestCookie, hm]
  · simp [getRequestCookie, hm]
  · simp [IronSession.restore, habs]
  · simp [IronSession.restore, hv, hvne, hu]
  · simp [IronSession.restore, hv, hvne, hu]

/-- A concrete session with no session cookie anywhere, for the claim C8
witness. -/
def c8absentSession : IronSession :=
  { req := { cookies := some [("unrelated", "x")], cookieHeader := none }
    res := { setCookieHeader := .absent }
    cookieName := "sess"
    cookieOptions := {}
    store := { unsealed := [], sealPassword := { id := "1", secret := "s" },
               unsealPassword := [("1", "s")],
               sealOptions := { ttl := 60000, timestampSkewSec := 60 } } }

/-- A concrete session whose raw `Cookie` header carries a malformed
token, for the claim C8 witness. -/
def c8presentSession : IronSession :=
  { req := { cookies := none, cookieHeader := some "sess=zzz" }
    res := { setCookieHeader := .absent }
    cookieName := "sess"
    cookieOptions := {}
    store := { unsealed := [], sealPassword := { id := "1", secret := "s" },
               unsealPassword := [("1", "s")],
               sealOptions := { ttl := 60000, timestampSkewSec := 60 } } }

/-- Witness for claim C8: with no cookie, `restore` is `false` and the
session is untouched; with a malformed cookie present, `restore`
propagates exactly the fatal unseal error. -/
theorem c8_restore_flow_witness :
    c8absentSession.restore 0 = .ok (c8absentSession, false) ∧
    c8presentSession.restore 0 = .error "Incorrect number of sealed components" :=
  ⟨(c8_restore_flow c8absentSession 0).2.1 (by decide),
   ((c8_restore_flow c8presentSession 0).2.2 "zzz" (by decide) (by decide)).2
     "Incorrect number of sealed components" (by decide)⟩

/-- Claim C9: writing the session cookie appends one `Set-Cookie` value
and leaves every value already present on the response in place, in
order — both at the header primitive and through `writeCookie` (the
common path of `save` and `destroy`). -/
theorem c9_setcookie_appends (res : Response) (c : String) (s s2 : IronSession)
    (v : String) :
    ((setResponseCookie res c).setCookieHeader.values
        = res.setCookieHeader.values ++ [c]) ∧
    (s.writeCookie v = .ok s2 →
      s2.res.setCookieHeader.values
        = s.res.setCookieHeader.values ++
            [cookieSerialize s.cookieName v
              (if v.isEmpty then withMaxAgeZero s.cookieOptions
               else s.cookieOptions)]) := by
  refine ⟨rfl, fun h => ?_⟩
  simp only [IronSession.writeCookie] at h
  by_cases hv : v.isEmpty = true
  · rw [if_pos hv] at h ⊢
    split at h
    · simp at h
    · cases h
      rfl
  · rw [if_neg hv] at h ⊢
    split at h
    · simp at h
    · cases h
      rfl

/-- A concrete session carrying an unrelated cookie on its response, for
the claim C9 witness. -/
def c9session : IronSession :=
  { req := { cookies := none, cookieHeader := none }
    res := { setCookieHeader := .single "other=1" }
    cookieName := "sess"
    cookieOptions := {}
    store := { unsealed := [], sealPassword := { id := "1", secret := "s" },
               unsealPassword := [("1", "s")],
               sealOptions := { ttl := 60000, timestampSkewSec := 60 } } }

/-- The session state after writing the value `tok` on `c9session`. -/
def c9written : IronSession :=
  { c9session with
    res := { setCookieHeader :=
      .multiple ["other=1", "sess=tok; Path=/; HttpOnly; SameSite=lax"] } }

/-- Witness for claim C9: writing a cookie on a response that already
holds `other=1` keeps `other=1` and appends the new value after it. -/
theorem c9_setcookie_appends_witness :
    c9written.res.setCookieHeader.values
      = c9session.res.setCookieHeader.values ++
          [cookieSerialize c9session.cookieName "tok"
            (if ("tok" : String).isEmpty
             then withMaxAgeZero c9session.cookieOptions
             else c9session.cookieOptions)] :=
  (c9_setcookie_appends { setCookieHeader := .absent } "" c9session c9written
    "tok").2 (by decide)

/-- Claim C10: a cookie present under the configured name with the empty
string as value is falsy at the restore interface — `restore` returns
`false` without unsealing, leaving the session (and its bag) unchanged,
exactly as when the cookie is absent. -/
theorem c10_empty_cookie_value (s : IronSession) (now : Int)
    (h : getRequestCookie s.req s.cookieName = some "") :
    s.restore now = .ok (s, false) := by
  have he : ("" : String).isEmpty = true := rfl
  simp [IronSession.restore, h, he]

/-- A concrete session whose request carries the named cookie with an
empty value, for the claim C10 witness. -/
def c10session : IronSession :=
  { req := { cookies := some [("sess", "")], cookieHeader := none }
    res := { setCookieHeader := .absent }
    cookieName := "sess"
    cookieOptions := {}
    store := { unsealed := [], sealPassword := { id := "1", secret := "s" },
               unsealPassword := [("1", "s")],
               sealOptions := { ttl := 60000, timestampSkewSec := 60 } } }

/-- Witness for claim C10: restoring with a present-but-empty cookie
returns `false` and leaves the session unchanged. -/
theorem c10_empty_cookie_value_witness :
    c10session.restore 0 = .ok (c10session, false) :=
  c10_empty_cookie_value c10session 0 (by decide)

end IronSessionSpec
